import Mathlib

/-!
Verification of the livetranslator core against its specification.

The development shallowly embeds the relevant parts of the source:

* `AudioRecorder.convertFloat32ToInt16` (frame encoder sample conversion),
  embedded over exact rationals; the conversions claimed are exact in
  IEEE double arithmetic (products of a float32 value with 32768 or 32767
  fit in 53 bits), so the rational embedding is faithful.  A second
  embedding over an extended value type with NaN and infinities follows
  the ECMAScript semantics of Math.min, Math.max, multiplication and
  ToInt16 for non-finite inputs, where again no rounding is involved.
* the debounce helper and the content handler of the Broadcaster
  component, embedded as pure functions over timed call lists,
* the debounced save (select single row by session id, then update by id
  or insert) over a list-of-rows store model,
* the AudioRecorder start and stop sequences, embedded as explicit state
  transitions with a failure oracle marking which browser call throws,
* the Broadcaster component state (recording flag, volume, transcript
  refs, session id ref, recorder, connection, store) with its event
  steps: mount effect, toggleBroadcast, stopBroadcast, the onended
  handler, the content handler, and a debounce-timer fire.
-/

namespace LiveTranslator

/- ## Frame encoder: AudioRecorder.convertFloat32ToInt16 -/

/-- Clamp a sample to the interval from -1 to 1, as in
`const s = Math.max(-1, Math.min(1, float32[i]))`. -/
def clampQ (x : ℚ) : ℚ := max (-1) (min 1 x)

/-- Truncation toward zero of a rational, the rounding ECMAScript ToInt16
applies to a finite number before taking it modulo 2 to the 16. -/
def ratTrunc (q : ℚ) : ℤ := if q < 0 then -⌊-q⌋ else ⌊q⌋

/-- Wrap of an integer into the signed 16-bit range, the modular part of
ECMAScript ToInt16 performed by the Int16Array element store. -/
def toInt16 (n : ℤ) : ℤ := (n + 32768) % 65536 - 32768

/-- The scaled value before the integer store:
`s < 0 ? s * 0x8000 : s * 0x7FFF` applied to the clamped sample. -/
def scaleSample (x : ℚ) : ℚ :=
  if clampQ x < 0 then clampQ x * 32768 else clampQ x * 32767

/-- One sample of `convertFloat32ToInt16`: clamp, scale asymmetrically,
then store into the Int16Array (truncate and wrap). -/
def sampleToInt16 (x : ℚ) : ℤ := toInt16 (ratTrunc (scaleSample x))

/-- `convertFloat32ToInt16`: elementwise conversion of the buffer. -/
def convertFloat32ToInt16 (xs : List ℚ) : List ℤ := xs.map sampleToInt16

lemma neg_one_le_clampQ (x : ℚ) : -1 ≤ clampQ x := le_max_left _ _

lemma clampQ_le_one (x : ℚ) : clampQ x ≤ 1 :=
  max_le (by norm_num) (min_le_left _ _)

lemma ratTrunc_scale_mem (x : ℚ) :
    -32768 ≤ ratTrunc (scaleSample x) ∧ ratTrunc (scaleSample x) ≤ 32767 := by
  unfold scaleSample ratTrunc
  by_cases h : clampQ x < 0
  · have hq : clampQ x * 32768 < 0 := mul_neg_of_neg_of_pos h (by norm_num)
    rw [if_pos h, if_pos hq]
    have hge : (-32768 : ℚ) ≤ clampQ x * 32768 := by
      have := mul_le_mul_of_nonneg_right (neg_one_le_clampQ x)
        (by norm_num : (0:ℚ) ≤ 32768)
      linarith
    constructor
    · have hfl : ⌊-(clampQ x * 32768)⌋ ≤ ⌊(32768 : ℚ)⌋ :=
        Int.floor_le_floor (by linarith)
      have h32 : ⌊(32768 : ℚ)⌋ = 32768 := by norm_num
      omega
    · have hfl : (0:ℤ) ≤ ⌊-(clampQ x * 32768)⌋ :=
        Int.floor_nonneg.mpr (by linarith)
      omega
  · have h0 : 0 ≤ clampQ x := not_lt.mp h
    have hq : ¬ clampQ x * 32767 < 0 :=
      not_lt.mpr (mul_nonneg h0 (by norm_num))
    rw [if_neg h, if_neg hq]
    constructor
    · have hfl : (0:ℤ) ≤ ⌊clampQ x * 32767⌋ :=
        Int.floor_nonneg.mpr (mul_nonneg h0 (by norm_num))
      omega
    · have hle : clampQ x * 32767 ≤ (32767 : ℚ) := by
        have := mul_le_mul_of_nonneg_right (clampQ_le_one x)
          (by norm_num : (0:ℚ) ≤ 32767)
        linarith
      have hfl : ⌊clampQ x * 32767⌋ ≤ ⌊(32767 : ℚ)⌋ := Int.floor_le_floor hle
      have h32 : ⌊(32767 : ℚ)⌋ = 32767 := by norm_num
      omega

lemma toInt16_eq_self {n : ℤ} (h1 : -32768 ≤ n) (h2 : n ≤ 32767) :
    toInt16 n = n := by
  unfold toInt16
  omega

lemma sampleToInt16_eq_trunc (x : ℚ) :
    sampleToInt16 x = ratTrunc (scaleSample x) := by
  have h := ratTrunc_scale_mem x
  exact toInt16_eq_self h.1 h.2

lemma sampleToInt16_mem (x : ℚ) :
    -32768 ≤ sampleToInt16 x ∧ sampleToInt16 x ≤ 32767 := by
  rw [sampleToInt16_eq_trunc]
  exact ratTrunc_scale_mem x

lemma sampleToInt16_one : sampleToInt16 1 = 32767 := by
  have hc : clampQ 1 = 1 := by unfold clampQ; norm_num
  rw [sampleToInt16_eq_trunc]
  unfold scaleSample ratTrunc
  rw [hc]
  norm_num

lemma sampleToInt16_neg_one : sampleToInt16 (-1) = -32768 := by
  have hc : clampQ (-1) = -1 := by unfold clampQ; norm_num
  rw [sampleToInt16_eq_trunc]
  unfold scaleSample ratTrunc
  rw [hc]
  norm_num

lemma sampleToInt16_zero : sampleToInt16 0 = 0 := by
  have hc : clampQ 0 = 0 := by unfold clampQ; norm_num
  rw [sampleToInt16_eq_trunc]
  unfold scaleSample ratTrunc
  rw [hc]
  norm_num

/-- Claim C1: convertFloat32ToInt16 preserves the buffer length; each
element is the input sample clamped to the unit interval, scaled by 32768
when negative and by 32767 otherwise, truncated toward zero; the boundary
samples 1, -1 and 0 map to 32767, -32768 and 0; and every output element
lies between -32768 and 32767. -/
theorem c1_frame_encoder_conversion :
    (∀ xs : List ℚ, (convertFloat32ToInt16 xs).length = xs.length ∧
      ∀ y ∈ convertFloat32ToInt16 xs, -32768 ≤ y ∧ y ≤ 32767) ∧
    (∀ x : ℚ, sampleToInt16 x =
      ratTrunc (if clampQ x < 0 then clampQ x * 32768 else clampQ x * 32767)) ∧
    sampleToInt16 1 = 32767 ∧ sampleToInt16 (-1) = -32768 ∧
    sampleToInt16 0 = 0 := by
  refine ⟨fun xs => ⟨List.length_map _ _, ?_⟩,
    fun x => sampleToInt16_eq_trunc x,
    sampleToInt16_one, sampleToInt16_neg_one, sampleToInt16_zero⟩
  intro y hy
  rcases List.mem_map.mp hy with ⟨x, _, rfl⟩
  exact sampleToInt16_mem x

/-- Witness for C1 at the concrete buffer with the single sample 2. -/
theorem c1_witness :
    (convertFloat32ToInt16 [2]).length = 1 ∧
    (-32768 ≤ sampleToInt16 2 ∧ sampleToInt16 2 ≤ 32767) :=
  ⟨(c1_frame_encoder_conversion.1 [2]).1,
   (c1_frame_encoder_conversion.1 [2]).2 (sampleToInt16 2) (List.Mem.head _)⟩

/- ## Frame encoder over the full ECMAScript number domain (C10).

A Float32Array element read yields a finite number, NaN or an infinity.
`JSVal` embeds that domain with exact rationals for the finite case; on
the conversion path no floating-point rounding distinguishes the real
code from this model for the properties below. -/

/-- An ECMAScript number as seen by the conversion loop. -/
inductive JSVal where
  | nan : JSVal
  | posInf : JSVal
  | negInf : JSVal
  | fin : ℚ → JSVal
deriving DecidableEq

/-- Math.min: NaN if either argument is NaN, else the smaller value with
negative infinity below everything. -/
def jsMin (a b : JSVal) : JSVal :=
  match a, b with
  | .nan, _ => .nan
  | _, .nan => .nan
  | .negInf, _ => .negInf
  | _, .negInf => .negInf
  | .posInf, y => y
  | x, .posInf => x
  | .fin x, .fin y => .fin (min x y)

/-- Math.max: NaN if either argument is NaN, else the larger value with
positive infinity above everything. -/
def jsMax (a b : JSVal) : JSVal :=
  match a, b with
  | .nan, _ => .nan
  | _, .nan => .nan
  | .posInf, _ => .posInf
  | _, .posInf => .posInf
  | .negInf, y => y
  | x, .negInf => x
  | .fin x, .fin y => .fin (max x y)

/-- The comparison `s < 0`: false on NaN, true only below zero. -/
def jsLtZero : JSVal → Bool
  | .nan => false
  | .posInf => false
  | .negInf => true
  | .fin q => decide (q < 0)

/-- Multiplication by a positive rational constant: NaN and the
infinities are absorbing. -/
def jsMulPos (c : ℚ) : JSVal → JSVal
  | .nan => .nan
  | .posInf => .posInf
  | .negInf => .negInf
  | .fin q => .fin (q * c)

/-- ECMAScript ToInt16: NaN and the infinities map to 0; a finite value
is truncated toward zero and wrapped into the signed 16-bit range. -/
def jsToInt16 : JSVal → ℤ
  | .fin q => toInt16 (ratTrunc q)
  | _ => 0

/-- One sample of convertFloat32ToInt16 over the full number domain:
`const s = Math.max(-1, Math.min(1, float32[i]))` followed by
`int16[i] = s < 0 ? s * 0x8000 : s * 0x7FFF`. -/
def sampleToInt16JS (x : JSVal) : ℤ :=
  let s := jsMax (.fin (-1)) (jsMin (.fin 1) x)
  jsToInt16 (if jsLtZero s then jsMulPos 32768 s else jsMulPos 32767 s)

lemma sampleToInt16JS_fin (q : ℚ) :
    sampleToInt16JS (JSVal.fin q) = sampleToInt16 q := by
  show jsToInt16
      (if jsLtZero (jsMax (.fin (-1)) (jsMin (.fin 1) (.fin q)))
       then jsMulPos 32768 (jsMax (.fin (-1)) (jsMin (.fin 1) (.fin q)))
       else jsMulPos 32767 (jsMax (.fin (-1)) (jsMin (.fin 1) (.fin q)))) =
    sampleToInt16 q
  have h1 : jsMax (.fin (-1)) (jsMin (.fin 1) (.fin q)) = .fin (clampQ q) := rfl
  rw [h1]
  by_cases h : clampQ q < 0
  · simp [jsLtZero, jsMulPos, jsToInt16, sampleToInt16, scaleSample, h]
  · simp [jsLtZero, jsMulPos, jsToInt16, sampleToInt16, scaleSample, h]

/-- Claim C10: the sample conversion is total over the full number
domain: NaN maps to 0, positive infinity is clamped and maps to 32767,
negative infinity is clamped and maps to -32768, and every input yields
a value in the signed 16-bit range. -/
theorem c10_total_sample_conversion :
    sampleToInt16JS JSVal.nan = 0 ∧
    sampleToInt16JS JSVal.posInf = 32767 ∧
    sampleToInt16JS JSVal.negInf = -32768 ∧
    ∀ x : JSVal, -32768 ≤ sampleToInt16JS x ∧ sampleToInt16JS x ≤ 32767 := by
  have hpos : sampleToInt16JS JSVal.posInf = 32767 := by
    have h1 : sampleToInt16JS JSVal.posInf = sampleToInt16JS (.fin 1) := by
      simp only [sampleToInt16JS]
      have h2 : jsMax (.fin (-1)) (jsMin (.fin 1) JSVal.posInf) =
          jsMax (.fin (-1)) (jsMin (.fin 1) (.fin 1)) := by
        show JSVal.fin (max (-1) 1) = .fin (max (-1) (min 1 1))
        norm_num
      rw [h2]
    rw [h1, sampleToInt16JS_fin, sampleToInt16_one]
  have hneg : sampleToInt16JS JSVal.negInf = -32768 := by
    have h1 : sampleToInt16JS JSVal.negInf = sampleToInt16JS (.fin (-1)) := by
      simp only [sampleToInt16JS]
      have h2 : jsMax (.fin (-1)) (jsMin (.fin 1) JSVal.negInf) =
          jsMax (.fin (-1)) (jsMin (.fin 1) (.fin (-1))) := by
        show (JSVal.fin (-1)) = .fin (max (-1) (min 1 (-1)))
        norm_num
      rw [h2]
    rw [h1, sampleToInt16JS_fin, sampleToInt16_neg_one]
  refine ⟨rfl, hpos, hneg, ?_⟩
  intro x
  cases x with
  | nan =>
    have h1 : sampleToInt16JS JSVal.nan = 0 := rfl
    rw [h1]; norm_num
  | posInf => rw [hpos]; norm_num
  | negInf => rw [hneg]; norm_num
  | fin q => rw [sampleToInt16JS_fin]; exact sampleToInt16_mem q

/- ## Transcript accumulator and debounce (Broadcaster).

The `debounce` helper keeps a single pending timeout; every call clears
it and schedules `func` with the arguments of that call, `wait`
milliseconds later.  On the single cooperative thread a scheduled call
runs iff no further call arrives strictly before its due time.
`handleContent` appends each text delta to `transcriptRef.current` and
invokes the debounced save with the full accumulated transcript. -/

/-- The runs of `func` produced by a sequence of debounced calls, each
given as (time of call, argument): a call runs iff it is the last one or
the next call arrives no earlier than its due time. -/
def debounceFires (wait : ℕ) : List (ℕ × String) → List String
  | [] => []
  | [c] => [c.2]
  | c :: c2 :: rest =>
    (if c.1 + wait ≤ c2.1 then [c.2] else []) ++ debounceFires wait (c2 :: rest)

/-- The debounced-save calls issued by `handleContent` for a sequence of
timed text deltas: the delta text is appended to the accumulator and the
call carries the full accumulated transcript. -/
def accumCalls (acc : String) : List (ℕ × String) → List (ℕ × String)
  | [] => []
  | d :: rest => (d.1, acc ++ d.2) :: accumCalls (acc ++ d.2) rest

/-- Concatenation of text deltas in arrival order. -/
def joinTexts : List String → String
  | [] => ""
  | [s] => s
  | s :: rest => s ++ joinTexts rest

/-- The persistence texts produced by a sequence of timed text deltas
flowing through `handleContent` and the 2000 ms debounced save. -/
def handleDeltas (ds : List (ℕ × String)) : List String :=
  debounceFires 2000 (accumCalls "" ds)

lemma debounce_coalesce :
    ∀ (ds : List (ℕ × String)) (acc : String), ds ≠ [] →
      List.Chain' (fun a b => b.1 < a.1 + 2000) ds →
      debounceFires 2000 (accumCalls acc ds) = [acc ++ joinTexts (ds.map Prod.snd)]
  | [], _, hne, _ => absurd rfl hne
  | [d], acc, _, _ => rfl
  | d :: d2 :: rest, acc, _, hcl => by
    rcases List.chain'_cons.mp hcl with ⟨hlt, hcl2⟩
    have ih := debounce_coalesce (d2 :: rest) (acc ++ d.2) (by simp) hcl2
    show debounceFires 2000
        ((d.1, acc ++ d.2) :: accumCalls (acc ++ d.2) (d2 :: rest)) = _
    rw [show accumCalls (acc ++ d.2) (d2 :: rest) =
        (d2.1, (acc ++ d.2) ++ d2.2) :: accumCalls ((acc ++ d.2) ++ d2.2) rest
      from rfl]
    rw [show debounceFires 2000
        ((d.1, acc ++ d.2) :: (d2.1, (acc ++ d.2) ++ d2.2) ::
          accumCalls ((acc ++ d.2) ++ d2.2) rest) =
        (if d.1 + 2000 ≤ d2.1 then [acc ++ d.2] else []) ++
          debounceFires 2000 ((d2.1, (acc ++ d.2) ++ d2.2) ::
            accumCalls ((acc ++ d.2) ++ d2.2) rest) from rfl]
    rw [if_neg (by omega)]
    rw [show ((d2.1, (acc ++ d.2) ++ d2.2) ::
        accumCalls ((acc ++ d.2) ++ d2.2) rest) =
        accumCalls (acc ++ d.2) (d2 :: rest) from rfl]
    rw [ih]
    rw [show (d :: d2 :: rest).map Prod.snd =
        d.2 :: (d2 :: rest).map Prod.snd from rfl]
    rw [show joinTexts (d.2 :: (d2 :: rest).map Prod.snd) =
        d.2 ++ joinTexts ((d2 :: rest).map Prod.snd) from rfl]
    rw [List.nil_append, String.append_assoc]

/-- Claim C2: deltas all closer than the 2000 ms window yield exactly one
persistence run carrying the concatenation of all deltas in arrival
order; two deltas farther apart than the window yield two runs. -/
theorem c2_debounce_policy :
    (∀ ds : List (ℕ × String), ds ≠ [] →
      List.Chain' (fun a b => b.1 < a.1 + 2000) ds →
      handleDeltas ds = [joinTexts (ds.map Prod.snd)]) ∧
    (∀ t1 t2 : ℕ, ∀ s1 s2 : String, t1 + 2000 < t2 →
      handleDeltas [(t1, s1), (t2, s2)] = [s1, s1 ++ s2]) := by
  constructor
  · intro ds hne hcl
    rw [handleDeltas, debounce_coalesce ds "" hne hcl, String.empty_append]
  · intro t1 t2 s1 s2 hgap
    show (if t1 + 2000 ≤ t2 then ["" ++ s1] else []) ++ ["" ++ s1 ++ s2] = _
    rw [if_pos (by omega), String.empty_append]
    rfl

/-- Witness for C2: two deltas 1000 ms apart coalesce into one save of
the concatenation; two deltas 3000 ms apart yield two saves. -/
theorem c2_witness :
    handleDeltas [(0, "a"), (1000, "b")] = [joinTexts ["a", "b"]] ∧
    handleDeltas [(0, "a"), (3000, "b")] = ["a", "a" ++ "b"] :=
  ⟨c2_debounce_policy.1 [(0, "a"), (1000, "b")] (by simp)
      (List.chain'_cons.mpr ⟨by norm_num, List.chain'_singleton _⟩),
   c2_debounce_policy.2 0 3000 "a" "b" (by norm_num)⟩

/- ## Persistence store and the debounced save body (Broadcaster).

The store is the `transcripts` table, one `Row` per record, with the
primary key `id` generated on insert.  The debounced save body runs
`select id eq session_id single`, then updates by `id` when exactly one
row matched, else inserts a fresh row.  The supabase client reports
failures as result values, not as thrown exceptions, so the body is a
total function of the store; nothing in it writes to the console. -/

/-- One row of the transcripts table.  The insert path does not supply
`updated_at` or an `id`; the id is generated by the database. -/
structure Row where
  id : ℕ
  session_id : String
  user_id : String
  full_transcript_text : String
  updated_at : Option ℕ
  source_language : Option String
deriving DecidableEq

/-- `select('id').eq('session_id', sid).single()`: the id when exactly
one row matches, else an error result, read back as no data. -/
def selectSingleId (store : List Row) (sid : String) : Option ℕ :=
  match store.filter (fun r => r.session_id = sid) with
  | [r] => some r.id
  | _ => none

/-- `update({full_transcript_text, updated_at}).eq('id', i)`. -/
def updateRowText (store : List Row) (i : ℕ) (text : String) (now : ℕ) :
    List Row :=
  store.map fun r =>
    if r.id = i then { r with full_transcript_text := text, updated_at := some now }
    else r

/-- The row built by the insert branch: session id, the placeholder
owner, the accumulated text and the language marker. -/
def newTranscriptRow (fid : ℕ) (sid text : String) : Row :=
  ⟨fid, sid, "broadcaster-user", text, none, some "auto"⟩

/-- The debounced save body on the store: resolve the single row for the
session id, then update by id or insert. -/
def debouncedSaveOp (store : List Row) (sid text : String) (now fid : ℕ) :
    List Row :=
  match selectSingleId store sid with
  | some i => updateRowText store i text now
  | none => store ++ [newTranscriptRow fid sid text]

/-- Claim C3: when exactly one row carries the session id, the save
updates that row in place, rewriting its text and timestamp, keeping its
other attributes (including the language marker) and every other row,
and inserting nothing; when no row carries the session id, the save
appends exactly one new row keyed by the session id with the accumulated
text, the placeholder owner and the language marker. -/
theorem c3_upsert_resolution :
    ∀ (store : List Row) (sid text : String) (now fid : ℕ),
      (∀ r : Row, store.filter (fun r2 => r2.session_id = sid) = [r] →
        (debouncedSaveOp store sid text now fid).length = store.length ∧
        { r with full_transcript_text := text, updated_at := some now } ∈
          debouncedSaveOp store sid text now fid ∧
        ∀ s ∈ store, s.id ≠ r.id → s ∈ debouncedSaveOp store sid text now fid) ∧
      (store.filter (fun r2 => r2.session_id = sid) = [] →
        debouncedSaveOp store sid text now fid =
          store ++ [newTranscriptRow fid sid text] ∧
        (newTranscriptRow fid sid text).session_id = sid ∧
        (newTranscriptRow fid sid text).user_id = "broadcaster-user" ∧
        (newTranscriptRow fid sid text).full_transcript_text = text ∧
        (newTranscriptRow fid sid text).source_language = some "auto") := by
  intro store sid text now fid
  constructor
  · intro r hone
    have hsel : selectSingleId store sid = some r.id := by
      rw [selectSingleId, hone]
    have hop : debouncedSaveOp store sid text now fid =
        updateRowText store r.id text now := by
      rw [debouncedSaveOp, hsel]
    have hrmem : r ∈ store := by
      have : r ∈ store.filter (fun r2 => r2.session_id = sid) := by
        rw [hone]; exact List.Mem.head _
      exact List.mem_of_mem_filter this
    refine ⟨?_, ?_, ?_⟩
    · rw [hop]; exact List.length_map _ _
    · rw [hop, updateRowText]
      have : { r with full_transcript_text := text, updated_at := some now } =
          (fun s : Row =>
            if s.id = r.id then
              { s with full_transcript_text := text, updated_at := some now }
            else s) r := by simp
      rw [this]
      exact List.mem_map_of_mem _ hrmem
    · intro s hs hne
      rw [hop, updateRowText]
      have : s = (fun s2 : Row =>
          if s2.id = r.id then
            { s2 with full_transcript_text := text, updated_at := some now }
          else s2) s := by simp [hne]
      rw [this]
      exact List.mem_map_of_mem _ hs
  · intro hnone
    have hsel : selectSingleId store sid = none := by
      rw [selectSingleId, hnone]
    refine ⟨?_, rfl, rfl, rfl, rfl⟩
    rw [debouncedSaveOp, hsel]

/-- Witness for C3: the spec scenario.  On the empty store the save for
session abc and text Hello inserts one row; the next save for the same
session with text Hello world updates that row, not inserting a second
one. -/
theorem c3_witness :
    debouncedSaveOp [] "abc" "Hello" 10 1 =
      [newTranscriptRow 1 "abc" "Hello"] ∧
    (debouncedSaveOp [newTranscriptRow 1 "abc" "Hello"] "abc" "Hello world" 20 2).length =
      [newTranscriptRow 1 "abc" "Hello"].length ∧
    { newTranscriptRow 1 "abc" "Hello" with
        full_transcript_text := "Hello world", updated_at := some 20 } ∈
      debouncedSaveOp [newTranscriptRow 1 "abc" "Hello"] "abc" "Hello world" 20 2 := by
  refine ⟨?_, ?_, ?_⟩
  · have h := ((c3_upsert_resolution [] "abc" "Hello" 10 1).2 (by decide)).1
    simpa using h
  · exact (((c3_upsert_resolution [newTranscriptRow 1 "abc" "Hello"] "abc"
      "Hello world" 20 2).1 (newTranscriptRow 1 "abc" "Hello")) (by decide)).1
  · exact (((c3_upsert_resolution [newTranscriptRow 1 "abc" "Hello"] "abc"
      "Hello world" 20 2).1 (newTranscriptRow 1 "abc" "Hello")) (by decide)).2.1

/- ## AudioRecorder start and stop.

The recorder fields mirror the private members of the class: stream,
audioContext, source and processor handles (abstracted as numbers) plus
the two graph edges wired by `connect` (source to processor, processor
to destination).  Browser calls may throw; a failure oracle names the
step that throws.  `start` runs inside a try block whose catch only logs
and rethrows, so fields assigned before the failing step keep their
values; `stop` has no try blocks at all, so a throwing release ends the
whole teardown. -/

/-- The mutable members of AudioRecorder. -/
structure RecorderState where
  stream : Option ℕ
  audioContext : Option ℕ
  source : Option ℕ
  processor : Option ℕ
  srcConnected : Bool
  procConnected : Bool
deriving DecidableEq

/-- The recorder as constructed: no handles, nothing wired. -/
def initRecorder : RecorderState := ⟨none, none, none, none, false, false⟩

/-- The browser calls of `start`, in source order. -/
inductive StartStep where
  | getUserMedia
  | newAudioContext
  | createMediaStreamSource
  | createScriptProcessor
  | connectSource
  | connectProcessor
deriving DecidableEq

/-- Outcome of `start`: the recorder fields after the run and the step
that threw, if any. -/
structure StartResult where
  state : RecorderState
  thrown : Option StartStep
deriving DecidableEq

/-- The part of `start` after the stream is held, with fresh handles for
the context, the media-stream source and the script processor. -/
def startRest (st : RecorderState) (fails : StartStep → Bool)
    (hc hn hp : ℕ) : StartResult :=
  if fails .newAudioContext then ⟨st, some .newAudioContext⟩ else
  let st1 := { st with audioContext := some hc }
  if fails .createMediaStreamSource then ⟨st1, some .createMediaStreamSource⟩ else
  let st2 := { st1 with source := some hn }
  if fails .createScriptProcessor then ⟨st2, some .createScriptProcessor⟩ else
  let st3 := { st2 with processor := some hp }
  if fails .connectSource then ⟨st3, some .connectSource⟩ else
  let st4 := { st3 with srcConnected := true }
  if fails .connectProcessor then ⟨st4, some .connectProcessor⟩ else
  ⟨{ st4 with procConnected := true }, none⟩

/-- `start(stream?)`: keep an externally supplied stream or acquire the
microphone, then build and wire the processing graph.  The catch block
only logs and rethrows, leaving every already-assigned field in place. -/
def startF (st : RecorderState) (ext : Option ℕ) (fails : StartStep → Bool)
    (hs hc hn hp : ℕ) : StartResult :=
  match ext with
  | some s => startRest { st with stream := some s } fails hc hn hp
  | none =>
    if fails .getUserMedia then ⟨st, some .getUserMedia⟩
    else startRest { st with stream := some hs } fails hc hn hp

/-- The release calls of `stop`, in source order. -/
inductive StopStep where
  | procDisconnect
  | srcDisconnect
  | trackStop
  | ctxClose
deriving DecidableEq

/-- Outcome of `stop`: the fields after the run, the releases performed,
and the release that threw, if any. -/
structure StopResult where
  state : RecorderState
  done : List StopStep
  thrown : Option StopStep
deriving DecidableEq

/-- Last guard of `stop`: close the audio context if held. -/
def stopStep4 (st : RecorderState) (done : List StopStep)
    (fails : StopStep → Bool) : StopResult :=
  if st.audioContext.isSome then
    if fails .ctxClose then ⟨st, done, some .ctxClose⟩
    else ⟨{ st with audioContext := none }, done ++ [.ctxClose], none⟩
  else ⟨st, done, none⟩

/-- Third guard of `stop`: stop the device tracks if a stream is held. -/
def stopStep3 (st : RecorderState) (done : List StopStep)
    (fails : StopStep → Bool) : StopResult :=
  if st.stream.isSome then
    if fails .trackStop then ⟨st, done, some .trackStop⟩
    else stopStep4 { st with stream := none } (done ++ [.trackStop]) fails
  else stopStep4 st done fails

/-- Second guard of `stop`: disconnect the media-stream source if held. -/
def stopStep2 (st : RecorderState) (done : List StopStep)
    (fails : StopStep → Bool) : StopResult :=
  if st.source.isSome then
    if fails .srcDisconnect then ⟨st, done, some .srcDisconnect⟩
    else stopStep3 { st with srcConnected := false, source := none }
      (done ++ [.srcDisconnect]) fails
  else stopStep3 st done fails

/-- `stop()`: four null-guarded release steps in source order, with no
try blocks, so the first throwing release ends the sequence with every
later handle still in place. -/
def stopF (st : RecorderState) (fails : StopStep → Bool) : StopResult :=
  if st.processor.isSome then
    if fails .procDisconnect then ⟨st, [], some .procDisconnect⟩
    else stopStep2 { st with procConnected := false, processor := none }
      [.procDisconnect] fails
  else stopStep2 st [] fails

/-- `stop()` on the ordinary path where no release throws. -/
def stopRec (st : RecorderState) : RecorderState :=
  (stopF st (fun _ => false)).state

/-- Failure oracle: only the processor disconnect throws. -/
def procFailOracle : StopStep → Bool
  | .procDisconnect => true
  | _ => false

/-- Failure oracle: only the source disconnect throws. -/
def srcStopFailOracle : StopStep → Bool
  | .srcDisconnect => true
  | _ => false

/-- The recorder after a fully successful start from the fresh state. -/
def activeRecorder : RecorderState :=
  (startF initRecorder none (fun _ => false) 1 2 3 4).state

lemma stopF_noFail (st : RecorderState) :
    (stopF st (fun _ => false)).thrown = none ∧
    (stopRec st).stream = none ∧ (stopRec st).audioContext = none ∧
    (stopRec st).source = none ∧ (stopRec st).processor = none ∧
    (stopF st (fun _ => false)).done =
      (if st.processor.isSome then [StopStep.procDisconnect] else []) ++
      ((if st.source.isSome then [StopStep.srcDisconnect] else []) ++
       ((if st.stream.isSome then [StopStep.trackStop] else []) ++
        (if st.audioContext.isSome then [StopStep.ctxClose] else []))) := by
  rcases st with ⟨s, a, n, p, sc, pc⟩
  cases s <;> cases a <;> cases n <;> cases p <;>
    simp [stopRec, stopF, stopStep2, stopStep3, stopStep4]

lemma stopF_allNone (st : RecorderState) (fails : StopStep → Bool)
    (hp : st.processor = none) (hn : st.source = none)
    (hs : st.stream = none) (ha : st.audioContext = none) :
    stopF st fails = ⟨st, [], none⟩ := by
  simp [stopF, stopStep2, stopStep3, stopStep4, hp, hn, hs, ha]

lemma stopF_srcFail (st : RecorderState) (fails : StopStep → Bool)
    (h1 : fails StopStep.procDisconnect = false)
    (h2 : fails StopStep.srcDisconnect = true)
    (hn : st.source.isSome = true) :
    (stopF st fails).thrown = some StopStep.srcDisconnect ∧
    (stopF st fails).state.source = st.source ∧
    (stopF st fails).state.stream = st.stream ∧
    (stopF st fails).state.audioContext = st.audioContext ∧
    (stopF st fails).done =
      (if st.processor.isSome then [StopStep.procDisconnect] else []) := by
  rcases st with ⟨s, a, n, p, sc, pc⟩
  cases n with
  | none => simp at hn
  | some nv =>
    cases p <;> simp [stopF, stopStep2, stopStep3, stopStep4, h1, h2]

lemma stopF_trackFail (st : RecorderState) (fails : StopStep → Bool)
    (h1 : fails StopStep.procDisconnect = false)
    (h2 : fails StopStep.srcDisconnect = false)
    (h3 : fails StopStep.trackStop = true)
    (hs : st.stream.isSome = true) :
    (stopF st fails).thrown = some StopStep.trackStop ∧
    (stopF st fails).state.stream = st.stream ∧
    (stopF st fails).state.audioContext = st.audioContext ∧
    (stopF st fails).done =
      (if st.processor.isSome then [StopStep.procDisconnect] else []) ++
      (if st.source.isSome then [StopStep.srcDisconnect] else []) := by
  rcases st with ⟨s, a, n, p, sc, pc⟩
  cases s with
  | none => simp at hs
  | some sv =>
    cases n <;> cases p <;>
      simp [stopF, stopStep2, stopStep3, stopStep4, h1, h2, h3]

lemma stopF_ctxFail (st : RecorderState) (fails : StopStep → Bool)
    (h1 : fails StopStep.procDisconnect = false)
    (h2 : fails StopStep.srcDisconnect = false)
    (h3 : fails StopStep.trackStop = false)
    (h4 : fails StopStep.ctxClose = true)
    (ha : st.audioContext.isSome = true) :
    (stopF st fails).thrown = some StopStep.ctxClose ∧
    (stopF st fails).state.audioContext = st.audioContext ∧
    (stopF st fails).done =
      (if st.processor.isSome then [StopStep.procDisconnect] else []) ++
      ((if st.source.isSome then [StopStep.srcDisconnect] else []) ++
       (if st.stream.isSome then [StopStep.trackStop] else [])) := by
  rcases st with ⟨s, a, n, p, sc, pc⟩
  cases a with
  | none => simp at ha
  | some av =>
    cases s <;> cases n <;> cases p <;>
      simp [stopF, stopStep2, stopStep3, stopStep4, h1, h2, h3, h4]

/-- Counterexample to C6: from a fully started recorder, a throwing
processor disconnect ends the whole teardown: no release is performed,
the stream, the source and the context all stay held. -/
theorem c6_counterexample :
    stopF activeRecorder procFailOracle =
      ⟨activeRecorder, [], some StopStep.procDisconnect⟩ ∧
    (stopF activeRecorder procFailOracle).state.stream = some 1 ∧
    (stopF activeRecorder procFailOracle).state.source = some 3 ∧
    (stopF activeRecorder procFailOracle).done = [] := by
  decide

/-- Claim C6 as amended: from every internal state, stop releases only
the held resources and in source order: processor disconnect, source
disconnect, track stop, context close, nulling each; the releases are
not individually guarded, so whichever release throws first ends the
teardown there: the earlier releases stay done, no later release runs,
every handle from the failing step on stays held, and nothing is
logged.  One conjunct per throwing release. -/
theorem c6_amended_stop_order :
    ∀ (st : RecorderState),
      ((stopF st (fun _ => false)).thrown = none ∧
       (stopRec st).processor = none ∧ (stopRec st).source = none ∧
       (stopRec st).stream = none ∧ (stopRec st).audioContext = none ∧
       (stopF st (fun _ => false)).done =
         (if st.processor.isSome then [StopStep.procDisconnect] else []) ++
         ((if st.source.isSome then [StopStep.srcDisconnect] else []) ++
          ((if st.stream.isSome then [StopStep.trackStop] else []) ++
           (if st.audioContext.isSome then [StopStep.ctxClose] else [])))) ∧
      (∀ fails : StopStep → Bool, st.processor.isSome = true →
        fails StopStep.procDisconnect = true →
        stopF st fails = ⟨st, [], some StopStep.procDisconnect⟩) ∧
      (∀ fails : StopStep → Bool, fails StopStep.procDisconnect = false →
        fails StopStep.srcDisconnect = true → st.source.isSome = true →
        (stopF st fails).thrown = some StopStep.srcDisconnect ∧
        (stopF st fails).state.source = st.source ∧
        (stopF st fails).state.stream = st.stream ∧
        (stopF st fails).state.audioContext = st.audioContext ∧
        (stopF st fails).done =
          (if st.processor.isSome then [StopStep.procDisconnect] else [])) ∧
      (∀ fails : StopStep → Bool, fails StopStep.procDisconnect = false →
        fails StopStep.srcDisconnect = false →
        fails StopStep.trackStop = true → st.stream.isSome = true →
        (stopF st fails).thrown = some StopStep.trackStop ∧
        (stopF st fails).state.stream = st.stream ∧
        (stopF st fails).state.audioContext = st.audioContext ∧
        (stopF st fails).done =
          (if st.processor.isSome then [StopStep.procDisconnect] else []) ++
          (if st.source.isSome then [StopStep.srcDisconnect] else [])) ∧
      (∀ fails : StopStep → Bool, fails StopStep.procDisconnect = false →
        fails StopStep.srcDisconnect = false →
        fails StopStep.trackStop = false →
        fails StopStep.ctxClose = true → st.audioContext.isSome = true →
        (stopF st fails).thrown = some StopStep.ctxClose ∧
        (stopF st fails).state.audioContext = st.audioContext ∧
        (stopF st fails).done =
          (if st.processor.isSome then [StopStep.procDisconnect] else []) ++
          ((if st.source.isSome then [StopStep.srcDisconnect] else []) ++
           (if st.stream.isSome then [StopStep.trackStop] else []))) := by
  intro st
  have h := stopF_noFail st
  refine ⟨⟨h.1, h.2.2.2.2.1, h.2.2.2.1, h.2.1, h.2.2.1, h.2.2.2.2.2⟩,
    ?_, ?_, ?_, ?_⟩
  · intro fails hp hf
    rw [stopF, if_pos hp, if_pos hf]
  · intro fails h1 h2 hn
    exact stopF_srcFail st fails h1 h2 hn
  · intro fails h1 h2 h3 hs
    exact stopF_trackFail st fails h1 h2 h3 hs
  · intro fails h1 h2 h3 h4 ha
    exact stopF_ctxFail st fails h1 h2 h3 h4 ha

/-- Witness for C6: the amended claim applied to the fully started
recorder with the throwing processor disconnect, with the throwing
source disconnect, and without failures. -/
theorem c6_witness :
    stopF activeRecorder procFailOracle =
      ⟨activeRecorder, [], some StopStep.procDisconnect⟩ ∧
    (stopF activeRecorder (fun _ => false)).thrown = none ∧
    (stopRec activeRecorder).stream = none ∧
    (stopF activeRecorder srcStopFailOracle).thrown =
      some StopStep.srcDisconnect ∧
    (stopF activeRecorder srcStopFailOracle).state.stream =
      activeRecorder.stream :=
  ⟨(c6_amended_stop_order activeRecorder).2.1 procFailOracle rfl rfl,
   (c6_amended_stop_order activeRecorder).1.1,
   (c6_amended_stop_order activeRecorder).1.2.2.2.1,
   ((c6_amended_stop_order activeRecorder).2.2.1 srcStopFailOracle
     rfl rfl rfl).1,
   ((c6_amended_stop_order activeRecorder).2.2.1 srcStopFailOracle
     rfl rfl rfl).2.2.1⟩

/-- Claim C9: stop never throws on the ordinary path, releases and nulls
every handle (stream, context, source, processor), is a fixpoint (a
second stop changes nothing and performs no release), and on the fresh
never-started recorder is a no-op. -/
theorem c9_stop_idempotent :
    ∀ st : RecorderState,
      (stopF st (fun _ => false)).thrown = none ∧
      (stopRec st).stream = none ∧ (stopRec st).audioContext = none ∧
      (stopRec st).source = none ∧ (stopRec st).processor = none ∧
      stopRec (stopRec st) = stopRec st ∧
      (stopF (stopRec st) (fun _ => false)).done = [] ∧
      stopRec initRecorder = initRecorder := by
  intro st
  have h := stopF_noFail st
  have hfix : stopF (stopRec st) (fun _ => false) = ⟨stopRec st, [], none⟩ :=
    stopF_allNone _ _ h.2.2.2.2.1 h.2.2.2.1 h.2.1 h.2.2.1
  refine ⟨h.1, h.2.1, h.2.2.1, h.2.2.2.1, h.2.2.2.2.1, ?_, ?_, ?_⟩
  · show (stopF (stopRec st) (fun _ => false)).state = stopRec st
    rw [hfix]
  · rw [hfix]
  · show (stopF initRecorder (fun _ => false)).state = initRecorder
    rw [stopF_allNone initRecorder _ rfl rfl rfl rfl]

/- ## Broadcaster component state and event steps.

The component state gathers the useState values (isRecording, micVolume,
transcript, sessionId), the refs (transcriptRef, sessionIdRef, the
recorder) and the connection flag of the live-API context, plus the
store and a console log for the persistence path.  The session id is
assigned once, by the mount effect with an empty dependency list; no
other step writes it.  `stopBroadcast` stops the recorder, disconnects,
and resets only the recording flag and the volume.  The onended handler
installed on the shared-display video track calls `stopBroadcast`. -/

/-- The Broadcaster component state. -/
structure BroadcasterState where
  isRecording : Bool
  micVolume : ℚ
  transcript : String
  transcriptRef : String
  sessionId : String
  sessionIdRef : String
  recorder : Option RecorderState
  connected : Bool
  store : List Row
  log : List String
deriving DecidableEq

/-- The component state on first render. -/
def initBroadcaster : BroadcasterState :=
  ⟨false, 0, "", "", "", "", none, false, [], []⟩

/-- The mount effect: generate the session id once and keep it in both
the state and the ref. -/
def mountSession (s : BroadcasterState) (sid : String) : BroadcasterState :=
  { s with sessionId := sid, sessionIdRef := sid }

/-- `stopBroadcast`: stop the recorder if present, disconnect, clear the
recording flag and the volume.  Nothing else is touched. -/
def stopBroadcast (s : BroadcasterState) : BroadcasterState :=
  { s with recorder := s.recorder.map stopRec,
           connected := false, isRecording := false, micVolume := 0 }

/-- The start branch of `toggleBroadcast` on its successful path:
connect, set the recording flag, create a recorder and start it (with an
external stream for the shared-display source, else the microphone). -/
def startBroadcast (s : BroadcasterState) (ext : Option ℕ)
    (hs hc hn hp : ℕ) : BroadcasterState :=
  { s with connected := true, isRecording := true,
           recorder := some (startF initRecorder ext (fun _ => false)
             hs hc hn hp).state }

/-- `toggleBroadcast`: stop when recording, else start. -/
def toggleBroadcast (s : BroadcasterState) (ext : Option ℕ)
    (hs hc hn hp : ℕ) : BroadcasterState :=
  if s.isRecording then stopBroadcast s else startBroadcast s ext hs hc hn hp

/-- The onended handler wired to the shared-display video track:
`stream.getVideoTracks()[0].onended = () => stopBroadcast()`. -/
def onSourceEnded (s : BroadcasterState) : BroadcasterState := stopBroadcast s

/-- One text part in `handleContent`: a non-empty text is appended to
the transcript ref and mirrored into the transcript state (and the
debounced save is re-armed with the full text). -/
def handleContentPart (s : BroadcasterState) (txt : String) : BroadcasterState :=
  if txt = "" then s
  else { s with transcriptRef := s.transcriptRef ++ txt,
                transcript := s.transcriptRef ++ txt }

/- ## The debounced save with failure results (C5).

The supabase client reports a failed query as an error value in the
result object; the debounced save body destructures only `data` on the
read and ignores the results of the write calls, and contains no
try/catch and no console call. -/

/-- Outcome of one run of the debounced save body: the store afterwards
and the console lines written by the body. -/
structure SaveOutcome where
  store : List Row
  log : List String
deriving DecidableEq

/-- The debounced save body with failure results: a failing read yields
no data (so the insert branch runs), a failing write leaves the store
unchanged; in every case the body returns normally and writes nothing to
the console. -/
def debouncedSaveF (store : List Row) (sid text : String) (now fid : ℕ)
    (readFails updateFails insertFails : Bool) : SaveOutcome :=
  let sel := if readFails then none else selectSingleId store sid
  match sel with
  | some i => if updateFails then ⟨store, []⟩ else ⟨updateRowText store i text now, []⟩
  | none => if insertFails then ⟨store, []⟩
            else ⟨store ++ [newTranscriptRow fid sid text], []⟩

/-- The debounce timer firing inside the component: run the save body on
the store with the session id ref and the text captured at the last
call; only the store and the log can change. -/
def saveFireStep (s : BroadcasterState) (text : String) (now fid : ℕ)
    (readFails updateFails insertFails : Bool) : BroadcasterState :=
  let out := debouncedSaveF s.store s.sessionIdRef text now fid
    readFails updateFails insertFails
  { s with store := out.store, log := s.log ++ out.log }

/-- Counterexample to C5: a persistence attempt whose read and insert
both fail is dropped with an empty console log — the failure is not
caught-and-logged anywhere in the used save path. -/
theorem c5_counterexample :
    (debouncedSaveF [] "abc" "Hello" 5 1 false false true).store = [] ∧
    (debouncedSaveF [] "abc" "Hello" 5 1 false false true).log = [] ∧
    (saveFireStep (mountSession initBroadcaster "abc") "Hello" 5 1
      false false true).log = [] := by
  decide

/-- Claim C5 as amended: a run of the debounced save path, failing or
not, returns normally and leaves the transcript refs, the recorder, the
connection, the recording flag, the volume and the console log all
unchanged; and when both writes fail the store is unchanged too.  The
failure is silently discarded, not logged. -/
theorem c5_amended_persistence_contained :
    ∀ (s : BroadcasterState) (text : String) (now fid : ℕ)
      (rf uf insf : Bool),
      (saveFireStep s text now fid rf uf insf).transcriptRef = s.transcriptRef ∧
      (saveFireStep s text now fid rf uf insf).transcript = s.transcript ∧
      (saveFireStep s text now fid rf uf insf).recorder = s.recorder ∧
      (saveFireStep s text now fid rf uf insf).connected = s.connected ∧
      (saveFireStep s text now fid rf uf insf).isRecording = s.isRecording ∧
      (saveFireStep s text now fid rf uf insf).micVolume = s.micVolume ∧
      (saveFireStep s text now fid rf uf insf).sessionIdRef = s.sessionIdRef ∧
      (saveFireStep s text now fid rf uf insf).log = s.log ∧
      (uf = true → insf = true →
        (saveFireStep s text now fid rf uf insf).store = s.store) := by
  intro s text now fid rf uf insf
  have hlog : (debouncedSaveF s.store s.sessionIdRef text now fid rf uf insf).log
      = [] := by
    rw [debouncedSaveF]
    rcases if rf then none else selectSingleId s.store s.sessionIdRef with _ | i
    · by_cases h : insf <;> simp [h]
    · by_cases h : uf <;> simp [h]
  refine ⟨rfl, rfl, rfl, rfl, rfl, rfl, rfl, ?_, ?_⟩
  · show s.log ++ (debouncedSaveF s.store s.sessionIdRef text now fid rf uf insf).log
      = s.log
    rw [hlog, List.append_nil]
  · intro hu hi
    show (debouncedSaveF s.store s.sessionIdRef text now fid rf uf insf).store
      = s.store
    rw [debouncedSaveF]
    rcases if rf then none else selectSingleId s.store s.sessionIdRef with _ | i
    · simp [hi]
    · simp [hu]

/-- Witness for C5 at a concrete component state with both writes
failing. -/
theorem c5_witness :
    (saveFireStep (mountSession initBroadcaster "abc") "Hello" 5 1
      false true true).store = (mountSession initBroadcaster "abc").store ∧
    (saveFireStep (mountSession initBroadcaster "abc") "Hello" 5 1
      false true true).transcriptRef =
      (mountSession initBroadcaster "abc").transcriptRef :=
  ⟨(c5_amended_persistence_contained (mountSession initBroadcaster "abc")
      "Hello" 5 1 false true true).2.2.2.2.2.2.2.2 rfl rfl,
   (c5_amended_persistence_contained (mountSession initBroadcaster "abc")
      "Hello" 5 1 false true true).1⟩

/-- Two start/stop cycles of one mounted component: mount, start, one
text delta, stop, start again. -/
def c7cycles : BroadcasterState :=
  toggleBroadcast
    (toggleBroadcast
      (handleContentPart
        (toggleBroadcast (mountSession initBroadcaster "session-one")
          none 1 2 3 4)
        "Hello")
      none 5 6 7 8)
    none 9 10 11 12

/-- Counterexample to C7: after a full start/stop cycle and a second
start, the component is recording again under the same session
identifier assigned at mount, and the transcript buffer still holds the
text of the first cycle instead of starting empty. -/
theorem c7_counterexample :
    c7cycles.isRecording = true ∧
    c7cycles.sessionIdRef = "session-one" ∧
    c7cycles.sessionId = "session-one" ∧
    c7cycles.transcriptRef = "Hello" := by
  decide

/-- Claim C7 as amended: the session identifier is assigned once by the
mount effect and is stable while the component is mounted; neither
stopBroadcast nor toggleBroadcast writes the identifier or the
transcript buffer, so successive start/stop cycles of one mounted
component share the identifier and the accumulated transcript; both are
discarded only with the component itself. -/
theorem c7_amended_session_identity :
    ∀ (s : BroadcasterState) (sid : String) (ext : Option ℕ) (hs hc hn hp : ℕ),
      (mountSession s sid).sessionIdRef = sid ∧
      (mountSession s sid).sessionId = sid ∧
      (stopBroadcast s).sessionIdRef = s.sessionIdRef ∧
      (stopBroadcast s).transcriptRef = s.transcriptRef ∧
      (stopBroadcast s).transcript = s.transcript ∧
      (toggleBroadcast s ext hs hc hn hp).sessionIdRef = s.sessionIdRef ∧
      (toggleBroadcast s ext hs hc hn hp).transcriptRef = s.transcriptRef := by
  intro s sid ext hs hc hn hp
  refine ⟨rfl, rfl, rfl, rfl, rfl, ?_, ?_⟩ <;>
  · rw [toggleBroadcast]
    by_cases h : s.isRecording <;> simp [h, stopBroadcast, startBroadcast]

/-- Claim C8: during a recording session the external source-end signal
acts exactly like the explicit stop branch of toggleBroadcast: recording
and volume indicators reset to false and zero, the connection closes,
and the recorder held by the session is stopped with every handle
released. -/
theorem c8_external_end_teardown :
    ∀ (s : BroadcasterState), s.isRecording = true →
      ∀ (ext : Option ℕ) (hs hc hn hp : ℕ),
      onSourceEnded s = toggleBroadcast s ext hs hc hn hp ∧
      (onSourceEnded s).isRecording = false ∧
      (onSourceEnded s).micVolume = 0 ∧
      (onSourceEnded s).connected = false ∧
      ∀ r, s.recorder = some r →
        (onSourceEnded s).recorder = some (stopRec r) ∧
        (stopRec r).stream = none ∧ (stopRec r).audioContext = none ∧
        (stopRec r).source = none ∧ (stopRec r).processor = none := by
  intro s hrec ext hs hc hn hp
  refine ⟨?_, rfl, rfl, rfl, ?_⟩
  · rw [toggleBroadcast, if_pos hrec]; rfl
  · intro r hr
    have h := stopF_noFail r
    refine ⟨?_, h.2.1, h.2.2.1, h.2.2.2.1, h.2.2.2.2.1⟩
    show s.recorder.map stopRec = some (stopRec r)
    rw [hr]; rfl

/-- Witness for C8 at a concrete freshly started session. -/
theorem c8_witness :
    onSourceEnded
        (startBroadcast (mountSession initBroadcaster "sid-live") none 1 2 3 4) =
      toggleBroadcast
        (startBroadcast (mountSession initBroadcaster "sid-live") none 1 2 3 4)
        none 9 9 9 9 ∧
    (onSourceEnded
        (startBroadcast (mountSession initBroadcaster "sid-live")
          none 1 2 3 4)).isRecording = false :=
  ⟨(c8_external_end_teardown
      (startBroadcast (mountSession initBroadcaster "sid-live") none 1 2 3 4)
      rfl none 9 9 9 9).1,
   (c8_external_end_teardown
      (startBroadcast (mountSession initBroadcaster "sid-live") none 1 2 3 4)
      rfl none 9 9 9 9).2.1⟩

end LiveTranslator
